import Mathlib

/-!
Verification of the violation-to-criterion mapping and aggregation core of
the uu-wcag-mcp repository.

The embedding below translates, at the level of lists of characters, the
relevant functions of the source:

* `src/reporter.js`  `ExcelReporter._mapViolationsToWCAG` (spreadsheet path):
  first regex `Principle(\d)\.Guideline(\d+)_(\d+)\.(\d+)_(\d+)_(\d+)` with
  criterion built from capture groups 4-6, fallback regex
  `(\d+)\.(\d+)\.(\d+)`, both applied through optional chaining
  `issue.code?.match`.
* `src/reporter.js`  `ExcelReporter._updateWorksheet`: per-bucket
  `errorCount` / `warningCount` filters and the three-way status cell.
* `src/index.js` (and its duplicate in the unnamed server file)
  `_mapViolationsToWCAG` (Markdown path): single regex
  `Guideline(\d+)_(\d+)\.(\d+)_(\d+)_(\d+)` with criterion built from capture
  groups 1, 2 and 5, no fallback, and a plain `issue.code.match` that throws
  when `code` is absent.
* the analyzer file: `_groupIssuesByType`, `_groupIssuesByImpact` and the
  pure aggregation part of `analyzeWebsite`.

The three regexes are implemented as deterministic scanners.  Every `\d+`
group in them is followed by a non-digit literal (`_`, `.`) or by the end of
the pattern, so the greedy match of a backtracking engine coincides with
taking the maximal digit run, and a match attempt at a given start position
either succeeds deterministically or fails with no alternative; JavaScript's
leftmost-match rule is then exactly "try every start position from the
left".  JavaScript strings are modelled as `String` / `List Char`; absent
(`undefined`) fields of issue records are modelled as `Option`.
-/

/-- Maximal leading run of decimal digits of a character list, together with
the rest of the list (the `\d+` greedy step). -/
def takeDigits : List Char → List Char × List Char
  | [] => ([], [])
  | c :: cs =>
    if c.isDigit then
      let p := takeDigits cs
      (c :: p.1, p.2)
    else ([], c :: cs)

/-- Match `\d+` at the current position: at least one digit, maximal run. -/
def digitRun (l : List Char) : Option (List Char × List Char) :=
  match takeDigits l with
  | ([], _) => none
  | (d :: ds, r) => some (d :: ds, r)

/-- Match a single `\d` at the current position. -/
def oneDigit : List Char → Option (Char × List Char)
  | [] => none
  | c :: cs => if c.isDigit then some (c, cs) else none

/-- Match one literal character at the current position. -/
def expectChar (c : Char) : List Char → Option (List Char)
  | [] => none
  | x :: xs => if c = x then some xs else none

/-- Match a literal character sequence at the current position. -/
def matchChars : List Char → List Char → Option (List Char)
  | [], l => some l
  | _ :: _, [] => none
  | p :: ps, c :: cs => if p = c then matchChars ps cs else none

/-- Try a position matcher at every start position, left to right, returning
the first success (the regex leftmost-match rule for the patterns above). -/
def scan {α : Type} (f : List Char → Option α) : List Char → Option α
  | [] => none
  | c :: cs =>
    match f (c :: cs) with
    | some r => some r
    | none => scan f cs

/-- The literal chunk `Principle` of the spreadsheet-path regex. -/
def principleLit : List Char :=
  ['P', 'r', 'i', 'n', 'c', 'i', 'p', 'l', 'e']

/-- The literal chunk `Guideline` of the Markdown-path regex. -/
def guidelineLit : List Char :=
  ['G', 'u', 'i', 'd', 'e', 'l', 'i', 'n', 'e']

/-- The literal chunk `.Guideline` of the spreadsheet-path regex. -/
def dotGuidelineLit : List Char :=
  '.' :: guidelineLit

/-- One match attempt of
`Principle(\d)\.Guideline(\d+)_(\d+)\.(\d+)_(\d+)_(\d+)`
(reporter.js line 76) at the current position.  Returns the six capture
groups. -/
def structAt (l : List Char) :
    Option (Char × List Char × List Char × List Char × List Char × List Char) :=
  (matchChars principleLit l).bind fun r1 =>
  (oneDigit r1).bind fun pr2 =>
  (matchChars dotGuidelineLit pr2.2).bind fun r3 =>
  (digitRun r3).bind fun g1r4 =>
  (expectChar '_' g1r4.2).bind fun r5 =>
  (digitRun r5).bind fun g2r6 =>
  (expectChar '.' g2r6.2).bind fun r7 =>
  (digitRun r7).bind fun ar8 =>
  (expectChar '_' ar8.2).bind fun r9 =>
  (digitRun r9).bind fun br10 =>
  (expectChar '_' br10.2).bind fun r11 =>
  (digitRun r11).map fun cr12 =>
  (pr2.1, g1r4.1, g2r6.1, ar8.1, br10.1, cr12.1)

/-- One match attempt of `Guideline(\d+)_(\d+)\.(\d+)_(\d+)_(\d+)`
(index.js line 935) at the current position.  Returns the five capture
groups. -/
def guideAt (l : List Char) :
    Option (List Char × List Char × List Char × List Char × List Char) :=
  (matchChars guidelineLit l).bind fun r1 =>
  (digitRun r1).bind fun g1r2 =>
  (expectChar '_' g1r2.2).bind fun r3 =>
  (digitRun r3).bind fun g2r4 =>
  (expectChar '.' g2r4.2).bind fun r5 =>
  (digitRun r5).bind fun ar6 =>
  (expectChar '_' ar6.2).bind fun r7 =>
  (digitRun r7).bind fun br8 =>
  (expectChar '_' br8.2).bind fun r9 =>
  (digitRun r9).map fun cr10 =>
  (g1r2.1, g2r4.1, ar6.1, br8.1, cr10.1)

/-- One match attempt of the fallback `(\d+)\.(\d+)\.(\d+)`
(reporter.js line 98) at the current position. -/
def bareAt (l : List Char) : Option (List Char × List Char × List Char) :=
  (digitRun l).bind fun ar1 =>
  (expectChar '.' ar1.2).bind fun r2 =>
  (digitRun r2).bind fun br3 =>
  (expectChar '.' br3.2).bind fun r4 =>
  (digitRun r4).map fun cr5 =>
  (ar1.1, br3.1, cr5.1)

/-- `"a.b.c"` assembled from three digit groups, as the template literals in
both mapping implementations do. -/
def criterionString (a b c : List Char) : String :=
  String.mk (a ++ '.' :: (b ++ '.' :: c))

/-- The spreadsheet path of criterion extraction, reporter.js lines 76-116:
the structured pattern first (criterion from the three trailing
success-criterion groups, principle text from the `Principle` digit), then
the bare-triple fallback (criterion from the three groups, principle text
from the first group), else no match. -/
def reporterResolve (code : String) : Option (String × String) :=
  match scan structAt code.data with
  | some (p, _, _, a, b, c) =>
      some (criterionString a b c, "Prinsipp " ++ String.mk [p])
  | none =>
      match scan bareAt code.data with
      | some (a, b, c) =>
          some (criterionString a b c, "Prinsipp " ++ String.mk a)
      | none => none

/-- The CriterionId resolved by the spreadsheet path. -/
def reporterCriterion (code : String) : Option String :=
  (reporterResolve code).map Prod.fst

/-- The CriterionId resolved by the Markdown path, index.js lines 935-938:
`Guideline(\d+)_(\d+)\.(\d+)_(\d+)_(\d+)` with the criterion assembled from
capture groups 1, 2 and 5 (`major.minor.sc3`); there is no fallback. -/
def indexCriterion (code : String) : Option String :=
  match scan guideAt code.data with
  | some (g1, g2, _, _, c) => some (criterionString g1 g2 c)
  | none => none

/-- A raw scanner issue record.  `code` and `type` are `Option` because the
claims exercise records in which these fields are absent (`undefined` in
JavaScript); `affectedElements` is absent on fresh pa11y issues and present
on the per-page grouped issues.  Pass-through fields that no modelled
operation reads (`typeCode`, `runner`, `runnerExtras`) are omitted. -/
structure RawIssue where
  code : Option String
  type : Option String
  message : String
  selector : String
  context : String
  affectedElements : Option Nat
deriving DecidableEq, Repr

/-- JavaScript `x || 1` on a possibly-absent numeric field: `undefined` and
`0` are falsy, any other number is kept. -/
def jsOr1 : Option Nat → Nat
  | none => 1
  | some n => if n = 0 then 1 else n

/-- The issue summary pushed into a criterion bucket by reporter.js
lines 90-95 / 108-113. -/
structure BucketIssue where
  type : Option String
  message : String
  selector : String
  affectedElements : Nat
deriving DecidableEq, Repr

/-- reporter.js: `{type, message, selector, affectedElements: x || 1}`. -/
def summarize (i : RawIssue) : BucketIssue :=
  ⟨i.type, i.message, i.selector, jsOr1 i.affectedElements⟩

/-- First value stored under a key, or `none`. -/
def findKey {β : Type} (k : String) : List (String × β) → Option β
  | [] => none
  | (k2, b) :: rest => if k2 = k then some b else findKey k rest

/-- Update the first entry stored under a key, leaving the rest alone. -/
def updateKey {β : Type} (k : String) (f : β → β) :
    List (String × β) → List (String × β)
  | [] => []
  | (k2, b) :: rest =>
    if k2 = k then (k2, f b) :: rest else (k2, b) :: updateKey k f rest

/-- One step of object accumulation: skip the record if it yields no key,
create the entry on first sight of the key, update it afterwards. -/
def groupStep {ι β : Type} (keyOf : ι → Option String) (mk : ι → β)
    (add : β → ι → β) (acc : List (String × β)) (i : ι) : List (String × β) :=
  match keyOf i with
  | none => acc
  | some k =>
    match findKey k acc with
    | some _ => updateKey k (fun b => add b i) acc
    | none => acc ++ [(k, mk i)]

/-- The payload list stored under a key (`[]` when the key is absent). -/
def projAt {β π : Type} (proj : β → List π) (acc : List (String × β))
    (k : String) : List π :=
  match findKey k acc with
  | some b => proj b
  | none => []

/-- A criterion bucket as built by reporter.js lines 82-95: the Norwegian
principle label, the criterion id and the pushed issue summaries. -/
structure Bucket where
  principle : String
  criterion : String
  issues : List BucketIssue
deriving DecidableEq, Repr

/-- Key of the spreadsheet accumulation: `issue.code?.match(...)` — an
absent `code` short-circuits to no match, otherwise the two-pattern
resolution runs. -/
def reporterKeyOf (i : RawIssue) : Option String :=
  match i.code with
  | none => none
  | some c => reporterCriterion c

/-- Fresh bucket for a first-seen criterion (reporter.js lines 82-88 and
100-106), holding the one summary pushed immediately after creation. -/
def reporterMk (i : RawIssue) : Bucket :=
  match i.code with
  | none => ⟨"", "", [summarize i]⟩
  | some c =>
    match reporterResolve c with
    | some pr => ⟨pr.2, pr.1, [summarize i]⟩
    | none => ⟨"", "", [summarize i]⟩

/-- Push one more summary onto an existing bucket (reporter.js line 90 /
108). -/
def reporterAdd (b : Bucket) (i : RawIssue) : Bucket :=
  { b with issues := b.issues ++ [summarize i] }

/-- reporter.js `_mapViolationsToWCAG` on the `analysis.pageAnalyses` shape:
all pages' issues are flattened in page order, then accumulated into the
criterion-keyed object.  (The `analysis.issues` branch of lines 67-68 is the
single-page instance `pages = [issues]` of the same fold.) -/
def mapViolationsToWCAG (pages : List (List RawIssue)) : List (String × Bucket) :=
  pages.flatten.foldl (groupStep reporterKeyOf reporterMk reporterAdd) []

/-- The issue list of the bucket keyed by a criterion (empty when the
criterion has no bucket), as `_updateWorksheet` reads it. -/
def bucketIssuesAt (m : List (String × Bucket)) (k : String) : List BucketIssue :=
  projAt Bucket.issues m k

/-- reporter.js line 154: `issues.filter(i => i.type === 'error').length`. -/
def errorCount (issues : List BucketIssue) : Nat :=
  (issues.filter fun i => decide (i.type = some "error")).length

/-- reporter.js line 155: `issues.filter(i => i.type === 'warning').length`. -/
def warningCount (issues : List BucketIssue) : Nat :=
  (issues.filter fun i => decide (i.type = some "warning")).length

/-- reporter.js line 181: `issues.reduce((sum, i) => sum + i.affectedElements, 0)`. -/
def totalAffected (issues : List BucketIssue) : Nat :=
  (issues.map BucketIssue.affectedElements).sum

/-- The status cell written by reporter.js lines 159-178: red "Ikke oppfylt"
when any error, orange "Advarsel" when only warnings, green "Oppfylt"
otherwise. -/
def statusFor (issues : List BucketIssue) : String :=
  if errorCount issues > 0 then "Ikke oppfylt"
  else if warningCount issues > 0 then "Advarsel"
  else "Oppfylt"

/-- The violation record pushed by index.js lines 944-950. -/
structure MdEntry where
  message : String
  type : Option String
  selector : String
  count : Nat
  context : String
deriving DecidableEq, Repr

/-- index.js lines 944-950: `{message, type, selector, count: affectedElements || 1, context}`. -/
def mdEntry (i : RawIssue) : MdEntry :=
  ⟨i.message, i.type, i.selector, jsOr1 i.affectedElements, i.context⟩

/-- One iteration of index.js lines 932-952.  `issue.code.match(...)` is not
optional-chained, so an absent `code` raises a `TypeError`, modelled as
`Except.error`; otherwise the single `Guideline` pattern is applied and
matching issues are accumulated under `major.minor.sc3`. -/
def indexStep (acc : List (String × List MdEntry)) (i : RawIssue) :
    Except String (List (String × List MdEntry)) :=
  match i.code with
  | none =>
    Except.error "TypeError: Cannot read properties of undefined (reading match)"
  | some c =>
    match indexCriterion c with
    | none => Except.ok acc
    | some k =>
      match findKey k acc with
      | some _ => Except.ok (updateKey k (fun es => es ++ [mdEntry i]) acc)
      | none => Except.ok (acc ++ [(k, [mdEntry i])])

/-- The fallible fold of the Markdown mapping over a list of issues. -/
def indexFold (acc : List (String × List MdEntry)) :
    List RawIssue → Except String (List (String × List MdEntry))
  | [] => Except.ok acc
  | i :: rest =>
    match indexStep acc i with
    | Except.error e => Except.error e
    | Except.ok acc2 => indexFold acc2 rest

/-- index.js `_mapViolationsToWCAG`: iterate over all pages' issues in
order; the first issue without a `code` aborts with the `TypeError`. -/
def indexMapViolationsToWCAG (pages : List (List RawIssue)) :
    Except String (List (String × List MdEntry)) :=
  indexFold [] pages.flatten

/-- JavaScript template-literal stringification of a possibly-absent string
field: `undefined` prints as `"undefined"`. -/
def jsStr : Option String → String
  | some s => s
  | none => "undefined"

/-- The deduplication key of `_groupIssuesByType` line 134:
`` `${issue.code}_${issue.type}` ``. -/
def issueKey (i : RawIssue) : String :=
  jsStr i.code ++ "_" ++ jsStr i.type

/-- The per-key record built by `_groupIssuesByType` lines 136-153.
Pass-through fields that nothing downstream reads (`typeCode`, `runner`,
`runnerExtras`) are omitted. -/
structure GroupRec where
  code : Option String
  type : Option String
  message : String
  context : String
  selector : String
  elements : List (String × String)
deriving DecidableEq, Repr

/-- First sight of a key: the record copies the issue's scalar fields and
the element push of line 150 makes `elements` a one-element list. -/
def groupMk (i : RawIssue) : GroupRec :=
  ⟨i.code, i.type, i.message, i.context, i.selector, [(i.selector, i.context)]⟩

/-- Later sight of the key: only `elements` grows (line 150). -/
def groupAdd (g : GroupRec) (i : RawIssue) : GroupRec :=
  { g with elements := g.elements ++ [(i.selector, i.context)] }

/-- The message suffix of `_groupIssuesByType` line 160:
`` ` (Affects ${n} element${n > 1 ? 's' : ''})` ``. -/
def affectsSuffix (n : Nat) : String :=
  " (Affects " ++ toString n ++ " element" ++ (if n > 1 then "s" else "") ++ ")"

/-- The `Object.values(grouped).map(...)` projection of lines 157-161: the
grouped record becomes an issue again, with `affectedElements` set to the
number of merged occurrences and the count suffix appended to the message.
(The carried `elements` array is dropped here because nothing downstream
reads it.) -/
def finishGroup (g : GroupRec) : RawIssue :=
  ⟨g.code, g.type, g.message ++ affectsSuffix g.elements.length, g.selector,
    g.context, some g.elements.length⟩

/-- Every issue yields a deduplication key (the template literal never
fails), so the analyzer's accumulation step never skips. -/
def groupKeyOf (i : RawIssue) : Option String :=
  some (issueKey i)

/-- The accumulated `grouped` object of `_groupIssuesByType` lines 131-154. -/
def groupedRecs (issues : List RawIssue) : List (String × GroupRec) :=
  issues.foldl (groupStep groupKeyOf groupMk groupAdd) []

/-- `_groupIssuesByType` (analyzer lines 130-162): accumulate by the
`code_type` key in insertion order, then project. -/
def groupIssuesByType (issues : List RawIssue) : List RawIssue :=
  (groupedRecs issues).map (fun e => finishGroup e.2)

/-- The global severity tally record of `_groupIssuesByImpact` line 169. -/
structure Impact where
  critical : Nat
  serious : Nat
  moderate : Nat
  minor : Nat
deriving DecidableEq, Repr

/-- ASCII lowering of one character (the fragment of JavaScript
`toLowerCase` exercised by severity tags). -/
def jsLowerChar (c : Char) : Char :=
  if 'A' ≤ c ∧ c ≤ 'Z' then Char.ofNat (c.toNat + 32) else c

/-- `s.toLowerCase()` on ASCII strings. -/
def jsLower (s : String) : String :=
  String.mk (s.data.map jsLowerChar)

/-- Analyzer line 172: `issue.type?.toLowerCase() || 'notice'` — an absent
`type` gives `undefined`, an empty string is falsy, both default to
`notice`. -/
def normalizedType (t : Option String) : String :=
  match t with
  | none => "notice"
  | some s => if jsLower s = "" then "notice" else jsLower s

/-- One iteration of `_groupIssuesByImpact` lines 171-176. -/
def impactStep (imp : Impact) (i : RawIssue) : Impact :=
  if normalizedType i.type = "error" then { imp with critical := imp.critical + 1 }
  else if normalizedType i.type = "warning" then { imp with serious := imp.serious + 1 }
  else { imp with moderate := imp.moderate + 1 }

/-- `_groupIssuesByImpact` (analyzer lines 168-179).  `minor` is initialized
to zero and never incremented. -/
def groupIssuesByImpact (issues : List RawIssue) : Impact :=
  issues.foldl impactStep ⟨0, 0, 0, 0⟩

/-- The pure aggregation result of `analyzeWebsite` (analyzer lines
89-119). -/
structure WebsiteAnalysis where
  pagesAnalyzed : Nat
  totalIssues : Nat
  pageIssues : List (List RawIssue)
  issuesByImpact : Impact
deriving DecidableEq, Repr

/-- The pure aggregation core of `analyzeWebsite` over the raw pa11y issue
lists of the successfully analyzed pages: each page's issues are grouped by
`_groupIssuesByType` (inside `analyzePage`), `allIssues` is their
concatenation in page order, `totalIssues` its length, and the global tally
runs over `allIssues`.  URL deduplication, crawling, failure collection and
timestamps are external I/O and out of scope. -/
def analyzeWebsite (pages : List (List RawIssue)) : WebsiteAnalysis :=
  let pageAnalyses := pages.map groupIssuesByType
  let allIssues := pageAnalyses.flatten
  ⟨pages.length, allIssues.length, pageAnalyses, groupIssuesByImpact allIssues⟩

/-- The characters of a rule code of the canonical pa11y shape
`WCAG2AA.Principle<p>.Guideline<g1>_<g2>.<s1>_<s2>_<s3>.<rest>` with
arbitrary numeric segments. -/
def structCodeChars (p : Char) (g1 g2 s1 s2 s3 rest : List Char) : List Char :=
  'W' :: 'C' :: 'A' :: 'G' :: '2' :: 'A' :: 'A' :: '.' ::
  'P' :: 'r' :: 'i' :: 'n' :: 'c' :: 'i' :: 'p' :: 'l' :: 'e' ::
  p :: '.' :: 'G' :: 'u' :: 'i' :: 'd' :: 'e' :: 'l' :: 'i' :: 'n' :: 'e' ::
  (g1 ++ '_' :: (g2 ++ '.' :: (s1 ++ '_' :: (s2 ++ '_' :: (s3 ++ '.' :: rest)))))

/-- A rule code of the canonical pa11y shape, as a string. -/
def structCode (p : Char) (g1 g2 s1 s2 s3 rest : List Char) : String :=
  String.mk (structCodeChars p g1 g2 s1 s2 s3 rest)

/-- Shortcut instance: equality of six-component capture tuples (built here
once because chained instance search exceeds its default size budget). -/
instance decEqCaptures6 :
    DecidableEq (Char × List Char × List Char × List Char × List Char × List Char) :=
  instDecidableEqProd

/-- Equality of `Except` results is decidable when both payloads are. -/
instance decEqExcept {ε α : Type} [DecidableEq ε] [DecidableEq α] :
    DecidableEq (Except ε α) := fun a b =>
  match a, b with
  | Except.ok x, Except.ok y =>
    if h : x = y then isTrue (by rw [h])
    else isFalse (by intro hh; cases hh; exact h rfl)
  | Except.error x, Except.error y =>
    if h : x = y then isTrue (by rw [h])
    else isFalse (by intro hh; cases hh; exact h rfl)
  | Except.ok _, Except.error _ => isFalse (by intro hh; cases hh)
  | Except.error _, Except.ok _ => isFalse (by intro hh; cases hh)

/-- Scenario 2 of the spec: a bare-triple rule code with a warning. -/
def bareTripleIssue : RawIssue :=
  ⟨some "2.4.2", some "warning", "Title missing", "", "", none⟩

/-- An issue record whose `code` field is absent. -/
def codelessIssue : RawIssue := ⟨none, some "error", "x", "", "", none⟩

/-- An issue record whose `type` field is absent. -/
def typelessIssue : RawIssue := ⟨some "2.4.2", none, "m", "s", "", none⟩

/-- One structured-code error issue, as in spec scenario 1. -/
def contrastError : RawIssue :=
  ⟨some "WCAG2AA.Principle1.Guideline1_4.1_4_3.G18.Fail", some "error",
    "Low contrast", "p.x", "", none⟩

/-- A warning issue on the same criterion. -/
def contrastWarning : RawIssue :=
  ⟨some "WCAG2AA.Principle1.Guideline1_4.1_4_3.G18.Fail", some "warning",
    "Check contrast", "p.y", "", none⟩

/-- Two raw issues with identical code and type but different selectors
(spec scenario 4). -/
def dupIssueA : RawIssue := ⟨some "c", some "error", "m", "s1", "", none⟩

def dupIssueB : RawIssue := ⟨some "c", some "error", "m", "s2", "", none⟩

/-- The single entry scenario 4 merges into. -/
def mergedDup : RawIssue :=
  ⟨some "c", some "error", "m (Affects 2 elements)", "s1", "", some 2⟩

/-- Issues whose distinct `(code, type)` pairs collide on the concatenated
`code_type` key (both give `a_b_c`). -/
def collideIssueA : RawIssue := ⟨some "a", some "b_c", "m1", "s1", "", none⟩

def collideIssueB : RawIssue := ⟨some "a_b", some "c", "m2", "s2", "", none⟩

/-! ### Lemmas, sanity checks and claim theorems -/

example : reporterCriterion "WCAG2AA.Principle1.Guideline1_4.1_4_3.G18.Fail" = some "1.4.3" := by
  decide

example : indexCriterion "WCAG2AA.Principle1.Guideline1_4.1_4_3.G18.Fail" = some "1.4.3" := by
  decide

example : indexCriterion "WCAG2AA.Principle1.Guideline1_4.2_5_3.G18.Fail" = some "1.4.3" := by
  decide

example : reporterCriterion "WCAG2AA.Principle1.Guideline1_4.2_5_3.G18.Fail" = some "2.5.3" := by
  decide

example : reporterCriterion "2.4.2" = some "2.4.2" := by decide

example : indexCriterion "2.4.2" = none := by decide

example : reporterCriterion "no-reference-here" = none := by decide

theorem findKey_append {β : Type} (k : String) (l1 l2 : List (String × β)) :
    findKey k (l1 ++ l2) =
      match findKey k l1 with
      | some b => some b
      | none => findKey k l2 := by
  induction l1 with
  | nil => simp [findKey]
  | cons e rest ih =>
    obtain ⟨k2, b⟩ := e
    by_cases h : k2 = k <;> simp [findKey, h, ih]

theorem findKey_updateKey_self {β : Type} (k : String) (f : β → β)
    (acc : List (String × β)) :
    findKey k (updateKey k f acc) = (findKey k acc).map f := by
  induction acc with
  | nil => simp [findKey, updateKey]
  | cons e rest ih =>
    obtain ⟨k2, b⟩ := e
    by_cases h : k2 = k <;> simp [findKey, updateKey, h, ih]

theorem findKey_updateKey_ne {β : Type} {k k2 : String} (hne : k2 ≠ k)
    (f : β → β) (acc : List (String × β)) :
    findKey k (updateKey k2 f acc) = findKey k acc := by
  induction acc with
  | nil => simp [findKey, updateKey]
  | cons e rest ih =>
    obtain ⟨k3, b⟩ := e
    by_cases h : k3 = k2
    · subst h
      simp [findKey, updateKey, if_neg hne]
    · by_cases h2 : k3 = k <;>
        simp [findKey, updateKey, h, h2, ih, Ne.symm hne]

/-- Characterization of the accumulated payload under one key: a fold of
`groupStep` extends the payload at `k` by the payloads of exactly the
records of the input that resolve to `k`, in encounter order. -/
theorem projAt_foldl_groupStep {ι β π : Type} (keyOf : ι → Option String)
    (mk : ι → β) (add : β → ι → β) (proj : β → List π) (pay : ι → π)
    (hmk : ∀ i, proj (mk i) = [pay i])
    (hadd : ∀ b i, proj (add b i) = proj b ++ [pay i]) :
    ∀ (l : List ι) (acc : List (String × β)) (k : String),
      projAt proj (l.foldl (groupStep keyOf mk add) acc) k =
        projAt proj acc k ++
          (l.filter fun i => decide (keyOf i = some k)).map pay := by
  intro l
  induction l with
  | nil => intro acc k; simp
  | cons i rest ih =>
    intro acc k
    rw [List.foldl_cons, ih]
    rcases hk : keyOf i with _ | k2
    · simp [groupStep, hk]
    · by_cases hkk : k2 = k
      · subst hkk
        have hstep : projAt proj (groupStep keyOf mk add acc i) k2
            = projAt proj acc k2 ++ [pay i] := by
          rcases hf : findKey k2 acc with _ | b
          · simp [groupStep, hk, hf, projAt, findKey_append, hmk, findKey]
          · simp [groupStep, hk, hf, projAt, findKey_updateKey_self, hadd]
        simp [hstep, hk]
      · have hstep : projAt proj (groupStep keyOf mk add acc i) k
            = projAt proj acc k := by
          rcases hf : findKey k2 acc with _ | b
          · have : findKey k (acc ++ [(k2, mk i)]) = findKey k acc := by
              rw [findKey_append]
              rcases findKey k acc with _ | b2 <;> simp [findKey, hkk]
            simp [groupStep, hk, hf, projAt, this]
          · simp [groupStep, hk, hf, projAt, findKey_updateKey_ne hkk]
        have hne : (keyOf i = some k) = False := by
          simp [hk, hkk]
        simp [hstep, hne]


theorem findKey_eq_none_iff {β : Type} (k : String) (acc : List (String × β)) :
    findKey k acc = none ↔ k ∉ acc.map Prod.fst := by
  induction acc with
  | nil => simp [findKey]
  | cons e rest ih =>
    obtain ⟨k2, b⟩ := e
    by_cases h : k2 = k
    · subst h
      simp [findKey]
    · simp [findKey, h, ih, Ne.symm h]

theorem map_fst_updateKey {β : Type} (k : String) (f : β → β)
    (acc : List (String × β)) :
    (updateKey k f acc).map Prod.fst = acc.map Prod.fst := by
  induction acc with
  | nil => simp [updateKey]
  | cons e rest ih =>
    obtain ⟨k2, b⟩ := e
    by_cases h : k2 = k <;> simp [updateKey, h, ih]

/-- The keys reachable in an accumulation fold: the starting keys plus a key
for every record of the input that resolves to one. -/
theorem mem_map_fst_foldl_groupStep {ι β : Type} (keyOf : ι → Option String)
    (mk : ι → β) (add : β → ι → β) :
    ∀ (l : List ι) (acc : List (String × β)) (k : String),
      (k ∈ (l.foldl (groupStep keyOf mk add) acc).map Prod.fst) ↔
        (k ∈ acc.map Prod.fst ∨ ∃ i ∈ l, keyOf i = some k) := by
  intro l
  induction l with
  | nil => intro acc k; simp
  | cons i rest ih =>
    intro acc k
    rw [List.foldl_cons, ih]
    have hstep : (k ∈ (groupStep keyOf mk add acc i).map Prod.fst) ↔
        (k ∈ acc.map Prod.fst ∨ keyOf i = some k) := by
      rcases hk : keyOf i with _ | k2
      · simp [groupStep, hk]
      · rcases hf : findKey k2 acc with _ | b
        · by_cases hkk : k2 = k
          · subst hkk
            simp [groupStep, hk, hf]
          · simp [groupStep, hk, hf, hkk, Ne.symm hkk]
        · have hmem : k2 ∈ acc.map Prod.fst := by
            by_contra hno
            rw [← findKey_eq_none_iff] at hno
            rw [hno] at hf
            exact Option.noConfusion hf
          by_cases hkk : k2 = k
          · subst hkk
            simp [groupStep, hk, hf, map_fst_updateKey, hmem]
          · simp [groupStep, hk, hf, map_fst_updateKey, hkk, Ne.symm hkk]
    rw [hstep]
    simp only [List.mem_cons]
    constructor
    · rintro (⟨h | h⟩ | ⟨i2, hi2, hk2⟩)
      · exact Or.inl h
      · exact Or.inr ⟨i, Or.inl rfl, h⟩
      · exact Or.inr ⟨i2, Or.inr hi2, hk2⟩
    · rintro (h | ⟨i2, h2 | h2, hk2⟩)
      · exact Or.inl (Or.inl h)
      · subst h2
        exact Or.inl (Or.inr hk2)
      · exact Or.inr ⟨i2, h2, hk2⟩

/-- The accumulation fold never duplicates a key. -/
theorem nodup_map_fst_foldl_groupStep {ι β : Type} (keyOf : ι → Option String)
    (mk : ι → β) (add : β → ι → β) :
    ∀ (l : List ι) (acc : List (String × β)),
      (acc.map Prod.fst).Nodup →
      ((l.foldl (groupStep keyOf mk add) acc).map Prod.fst).Nodup := by
  intro l
  induction l with
  | nil => intro acc h; simpa using h
  | cons i rest ih =>
    intro acc h
    rw [List.foldl_cons]
    apply ih
    rcases hk : keyOf i with _ | k2
    · simpa [groupStep, hk] using h
    · rcases hf : findKey k2 acc with _ | b
      · have hno : k2 ∉ acc.map Prod.fst := (findKey_eq_none_iff k2 acc).mp hf
        simp [groupStep, hk, hf, List.nodup_append, h, hno]
      · simpa [groupStep, hk, hf, map_fst_updateKey] using h

theorem mem_updateKey {β : Type} (k : String) (f : β → β) :
    ∀ (acc : List (String × β)) (e : String × β), e ∈ updateKey k f acc →
      e ∈ acc ∨ ∃ b, (k, b) ∈ acc ∧ e = (k, f b) := by
  intro acc
  induction acc with
  | nil =>
    intro e he
    simp [updateKey] at he
  | cons e2 rest ih =>
    intro e he
    obtain ⟨k2, b2⟩ := e2
    by_cases h : k2 = k
    · subst h
      simp only [updateKey, if_pos rfl] at he
      rcases List.mem_cons.mp he with he1 | he1
      · rw [he1]
        exact Or.inr ⟨b2, List.mem_cons_self _ _, rfl⟩
      · exact Or.inl (List.mem_cons_of_mem _ he1)
    · simp only [updateKey, if_neg h] at he
      rcases List.mem_cons.mp he with he1 | he1
      · exact Or.inl (by simp [he1])
      · rcases ih e he1 with h2 | ⟨b3, hb3, hbe⟩
        · exact Or.inl (List.mem_cons_of_mem _ h2)
        · exact Or.inr ⟨b3, List.mem_cons_of_mem _ hb3, hbe⟩

/-- Every entry of the accumulation fold satisfies an invariant that holds
for freshly created entries and is preserved by updates. -/
theorem entry_invariant_foldl_groupStep {ι β : Type} (keyOf : ι → Option String)
    (mk : ι → β) (add : β → ι → β) (P : String → β → Prop) (src : List ι)
    (hmk : ∀ i k, i ∈ src → keyOf i = some k → P k (mk i))
    (hadd : ∀ k b i, P k b → i ∈ src → keyOf i = some k → P k (add b i)) :
    ∀ (l : List ι), (∀ i ∈ l, i ∈ src) →
      ∀ (acc : List (String × β)), (∀ e ∈ acc, P e.1 e.2) →
      ∀ e ∈ l.foldl (groupStep keyOf mk add) acc, P e.1 e.2 := by
  intro l
  induction l with
  | nil =>
    intro _ acc hacc e he
    exact hacc e he
  | cons i rest ih =>
    intro hsub acc hacc e he
    rw [List.foldl_cons] at he
    refine ih (fun j hj => hsub j (List.mem_cons_of_mem _ hj)) _ ?_ e he
    intro e2 he2
    rcases hk : keyOf i with _ | k2
    · simp only [groupStep, hk] at he2
      exact hacc e2 he2
    · rcases hf : findKey k2 acc with _ | b
      · simp only [groupStep, hk, hf] at he2
        rcases List.mem_append.mp he2 with h2 | h2
        · exact hacc e2 h2
        · have he3 : e2 = (k2, mk i) := by simpa using h2
          rw [he3]
          exact hmk i k2 (hsub i (List.mem_cons_self _ _)) hk
      · simp only [groupStep, hk, hf] at he2
        rcases mem_updateKey k2 _ acc e2 he2 with h2 | ⟨b2, hb2, hbe⟩
        · exact hacc e2 h2
        · rw [hbe]
          exact hadd k2 b2 i (hacc (k2, b2) hb2) (hsub i (List.mem_cons_self _ _)) hk

/-- Under distinct keys, membership determines lookup. -/
theorem findKey_of_mem_nodup {β : Type} :
    ∀ {acc : List (String × β)}, (acc.map Prod.fst).Nodup →
      ∀ {k : String} {b : β}, (k, b) ∈ acc → findKey k acc = some b := by
  intro acc
  induction acc with
  | nil =>
    intro _ k b hm
    simp at hm
  | cons e rest ih =>
    intro hnd k b hm
    obtain ⟨k2, b2⟩ := e
    simp only [List.map_cons, List.nodup_cons] at hnd
    rcases List.mem_cons.mp hm with h | h
    · rw [Prod.mk.injEq] at h
      obtain ⟨h1, h2⟩ := h
      subst h1
      subst h2
      simp [findKey]
    · by_cases hke : k2 = k
      · subst hke
        exfalso
        exact hnd.1 (by simpa using List.mem_map_of_mem Prod.fst h)
      · simp only [findKey, if_neg hke]
        exact ih hnd.2 h

example :
    groupIssuesByType
      [⟨some "c", some "error", "m", "s1", "x", none⟩,
       ⟨some "c", some "error", "m", "s2", "y", none⟩] =
      [⟨some "c", some "error", "m (Affects 2 elements)", "s1", "x", some 2⟩] := by
  decide

example :
    groupIssuesByType [⟨some "c", some "error", "m", "s1", "x", none⟩] =
      [⟨some "c", some "error", "m (Affects 1 element)", "s1", "x", some 1⟩] := by
  decide

example :
    groupIssuesByImpact [⟨some "c", some "Error", "m", "s", "x", none⟩] =
      ⟨1, 0, 0, 0⟩ := by
  decide

example :
    bucketIssuesAt
      (mapViolationsToWCAG
        [[⟨some "WCAG2AA.Principle1.Guideline1_4.1_4_3.G18.Fail", some "error",
           "Low contrast", "p.x", "", none⟩]]) "1.4.3" =
      [⟨some "error", "Low contrast", "p.x", 1⟩] := by
  decide

theorem takeDigits_append (ds : List Char) (hds : ∀ c ∈ ds, c.isDigit = true)
    (x : Char) (hx : x.isDigit = false) (r : List Char) :
    takeDigits (ds ++ x :: r) = (ds, x :: r) := by
  induction ds with
  | nil => simp [takeDigits, hx]
  | cons c cs ih =>
    have hc : c.isDigit = true := hds c (List.mem_cons_self _ _)
    have ih2 := ih fun c2 h2 => hds c2 (List.mem_cons_of_mem _ h2)
    simp [takeDigits, hc, ih2]

theorem digitRun_append (ds : List Char) (hne : ds ≠ [])
    (hds : ∀ c ∈ ds, c.isDigit = true) (x : Char) (hx : x.isDigit = false)
    (r : List Char) : digitRun (ds ++ x :: r) = some (ds, x :: r) := by
  rw [digitRun, takeDigits_append ds hds x hx r]
  match ds, hne with
  | d :: ds2, _ => rfl

theorem scan_cons_of_none {α : Type} {f : List Char → Option α} {c : Char}
    {cs : List Char} (h : f (c :: cs) = none) :
    scan f (c :: cs) = scan f cs := by
  simp [scan, h]

theorem scan_cons_of_some {α : Type} {f : List Char → Option α} {c : Char}
    {cs : List Char} {r : α} (h : f (c :: cs) = some r) :
    scan f (c :: cs) = some r := by
  simp [scan, h]

theorem not_G_of_digit {p : Char} (hp : p.isDigit = true) : ('G' = p) = False := by
  refine eq_false ?_
  intro h
  rw [← h] at hp
  exact absurd hp (by decide)

/-- A successful structured-pattern attempt: at a position that starts with
the `Principle` literal followed by well-formed digit groups, the attempt
returns exactly those groups. -/
theorem structAt_build (p : Char) (g1 g2 s1 s2 s3 rest : List Char)
    (hp : p.isDigit = true)
    (hg1 : g1 ≠ []) (hg1d : ∀ c ∈ g1, c.isDigit = true)
    (hg2 : g2 ≠ []) (hg2d : ∀ c ∈ g2, c.isDigit = true)
    (hs1 : s1 ≠ []) (hs1d : ∀ c ∈ s1, c.isDigit = true)
    (hs2 : s2 ≠ []) (hs2d : ∀ c ∈ s2, c.isDigit = true)
    (hs3 : s3 ≠ []) (hs3d : ∀ c ∈ s3, c.isDigit = true) :
    structAt ('P' :: 'r' :: 'i' :: 'n' :: 'c' :: 'i' :: 'p' :: 'l' :: 'e' ::
        p :: '.' :: 'G' :: 'u' :: 'i' :: 'd' :: 'e' :: 'l' :: 'i' :: 'n' :: 'e' ::
        (g1 ++ '_' :: (g2 ++ '.' :: (s1 ++ '_' :: (s2 ++ '_' :: (s3 ++ '.' :: rest)))))) =
      some (p, g1, g2, s1, s2, s3) := by
  simp [structAt, principleLit, dotGuidelineLit, guidelineLit, matchChars,
    oneDigit, hp, expectChar,
    digitRun_append g1 hg1 hg1d '_' (by decide),
    digitRun_append g2 hg2 hg2d '.' (by decide),
    digitRun_append s1 hs1 hs1d '_' (by decide),
    digitRun_append s2 hs2 hs2d '_' (by decide),
    digitRun_append s3 hs3 hs3d '.' (by decide)]

/-- A successful Markdown-pattern attempt at a position that starts with the
`Guideline` literal. -/
theorem guideAt_build (g1 g2 s1 s2 s3 rest : List Char)
    (hg1 : g1 ≠ []) (hg1d : ∀ c ∈ g1, c.isDigit = true)
    (hg2 : g2 ≠ []) (hg2d : ∀ c ∈ g2, c.isDigit = true)
    (hs1 : s1 ≠ []) (hs1d : ∀ c ∈ s1, c.isDigit = true)
    (hs2 : s2 ≠ []) (hs2d : ∀ c ∈ s2, c.isDigit = true)
    (hs3 : s3 ≠ []) (hs3d : ∀ c ∈ s3, c.isDigit = true) :
    guideAt ('G' :: 'u' :: 'i' :: 'd' :: 'e' :: 'l' :: 'i' :: 'n' :: 'e' ::
        (g1 ++ '_' :: (g2 ++ '.' :: (s1 ++ '_' :: (s2 ++ '_' :: (s3 ++ '.' :: rest)))))) =
      some (g1, g2, s1, s2, s3) := by
  simp [guideAt, guidelineLit, matchChars, expectChar,
    digitRun_append g1 hg1 hg1d '_' (by decide),
    digitRun_append g2 hg2 hg2d '.' (by decide),
    digitRun_append s1 hs1 hs1d '_' (by decide),
    digitRun_append s2 hs2 hs2d '_' (by decide),
    digitRun_append s3 hs3 hs3d '.' (by decide)]

/-- The structured-pattern scan skips the concrete `WCAG2AA.` standard tag
(no character of it starts a `Principle` literal). -/
theorem scan_structAt_lead (tail : List Char) :
    scan structAt
        ('W' :: 'C' :: 'A' :: 'G' :: '2' :: 'A' :: 'A' :: '.' :: tail) =
      scan structAt tail := by
  simp [scan, structAt, principleLit, matchChars]

/-- The Markdown-pattern scan skips `WCAG2AA.Principle` (the single interior
`G` is followed by `2`, not `u`). -/
theorem scan_guideAt_lead (tail : List Char) :
    scan guideAt
        ('W' :: 'C' :: 'A' :: 'G' :: '2' :: 'A' :: 'A' :: '.' :: 'P' :: 'r' ::
         'i' :: 'n' :: 'c' :: 'i' :: 'p' :: 'l' :: 'e' :: tail) =
      scan guideAt tail := by
  simp [scan, guideAt, guidelineLit, matchChars]

theorem scan_guideAt_digit {p : Char} (hp : p.isDigit = true) (tail : List Char) :
    scan guideAt (p :: tail) = scan guideAt tail := by
  refine scan_cons_of_none ?_
  simp [guideAt, guidelineLit, matchChars, not_G_of_digit hp]

theorem scan_guideAt_dot (tail : List Char) :
    scan guideAt ('.' :: tail) = scan guideAt tail := by
  refine scan_cons_of_none ?_
  simp [guideAt, guidelineLit, matchChars]

theorem structCode_data (p : Char) (g1 g2 s1 s2 s3 rest : List Char) :
    (structCode p g1 g2 s1 s2 s3 rest).data =
      structCodeChars p g1 g2 s1 s2 s3 rest := rfl

example :
    structCode '1' ['1'] ['4'] ['1'] ['4'] ['3']
        ('G' :: '1' :: '8' :: '.' :: 'F' :: 'a' :: 'i' :: 'l' :: []) =
      "WCAG2AA.Principle1.Guideline1_4.1_4_3.G18.Fail" := by
  decide

theorem scan_structAt_structCode (p : Char) (g1 g2 s1 s2 s3 rest : List Char)
    (hp : p.isDigit = true)
    (hg1 : g1 ≠ []) (hg1d : ∀ c ∈ g1, c.isDigit = true)
    (hg2 : g2 ≠ []) (hg2d : ∀ c ∈ g2, c.isDigit = true)
    (hs1 : s1 ≠ []) (hs1d : ∀ c ∈ s1, c.isDigit = true)
    (hs2 : s2 ≠ []) (hs2d : ∀ c ∈ s2, c.isDigit = true)
    (hs3 : s3 ≠ []) (hs3d : ∀ c ∈ s3, c.isDigit = true) :
    scan structAt (structCodeChars p g1 g2 s1 s2 s3 rest) =
      some (p, g1, g2, s1, s2, s3) := by
  rw [structCodeChars, scan_structAt_lead]
  exact scan_cons_of_some
    (structAt_build p g1 g2 s1 s2 s3 rest hp hg1 hg1d hg2 hg2d hs1 hs1d hs2
      hs2d hs3 hs3d)

theorem scan_guideAt_structCode (p : Char) (g1 g2 s1 s2 s3 rest : List Char)
    (hp : p.isDigit = true)
    (hg1 : g1 ≠ []) (hg1d : ∀ c ∈ g1, c.isDigit = true)
    (hg2 : g2 ≠ []) (hg2d : ∀ c ∈ g2, c.isDigit = true)
    (hs1 : s1 ≠ []) (hs1d : ∀ c ∈ s1, c.isDigit = true)
    (hs2 : s2 ≠ []) (hs2d : ∀ c ∈ s2, c.isDigit = true)
    (hs3 : s3 ≠ []) (hs3d : ∀ c ∈ s3, c.isDigit = true) :
    scan guideAt (structCodeChars p g1 g2 s1 s2 s3 rest) =
      some (g1, g2, s1, s2, s3) := by
  rw [structCodeChars, scan_guideAt_lead, scan_guideAt_digit hp, scan_guideAt_dot]
  exact scan_cons_of_some
    (guideAt_build g1 g2 s1 s2 s3 rest hg1 hg1d hg2 hg2d hs1 hs1d hs2 hs2d
      hs3 hs3d)

/-- C1 (amended): for every rule code of the canonical structured shape
`WCAG2AA.Principle<p>.Guideline<g1>_<g2>.<s1>_<s2>_<s3>.<rest>`, the
spreadsheet mapping resolves the CriterionId to the trailing
success-criterion triple `s1.s2.s3` (discarding the guideline-principle
prefix), while the Markdown mapping resolves it to `g1.g2.s3` (guideline
digits plus the final success-criterion digit); the two agree exactly when
the guideline digits repeat the leading success-criterion digits. -/
theorem structured_code_resolution (p : Char) (g1 g2 s1 s2 s3 rest : List Char)
    (hp : p.isDigit = true)
    (hg1 : g1 ≠ []) (hg1d : ∀ c ∈ g1, c.isDigit = true)
    (hg2 : g2 ≠ []) (hg2d : ∀ c ∈ g2, c.isDigit = true)
    (hs1 : s1 ≠ []) (hs1d : ∀ c ∈ s1, c.isDigit = true)
    (hs2 : s2 ≠ []) (hs2d : ∀ c ∈ s2, c.isDigit = true)
    (hs3 : s3 ≠ []) (hs3d : ∀ c ∈ s3, c.isDigit = true) :
    reporterCriterion (structCode p g1 g2 s1 s2 s3 rest) =
        some (criterionString s1 s2 s3) ∧
      indexCriterion (structCode p g1 g2 s1 s2 s3 rest) =
        some (criterionString g1 g2 s3) := by
  constructor
  · rw [reporterCriterion, reporterResolve, structCode_data,
      scan_structAt_structCode p g1 g2 s1 s2 s3 rest hp hg1 hg1d hg2 hg2d hs1
        hs1d hs2 hs2d hs3 hs3d]
    rfl
  · rw [indexCriterion, structCode_data,
      scan_guideAt_structCode p g1 g2 s1 s2 s3 rest hp hg1 hg1d hg2 hg2d hs1
        hs1d hs2 hs2d hs3 hs3d]

/-- C1 witness: the canonical example from the source comments,
`WCAG2AA.Principle1.Guideline1_4.1_4_3.G18.Fail`, resolves to `1.4.3` in
both paths. -/
theorem structured_code_resolution_witness :
    reporterCriterion
        (structCode '1' ['1'] ['4'] ['1'] ['4'] ['3']
          ['G', '1', '8', '.', 'F', 'a', 'i', 'l']) =
      some (criterionString ['1'] ['4'] ['3']) :=
  (structured_code_resolution '1' ['1'] ['4'] ['1'] ['4'] ['3']
    ['G', '1', '8', '.', 'F', 'a', 'i', 'l'] (by decide) (by decide) (by decide)
    (by decide) (by decide) (by decide) (by decide) (by decide) (by decide)
    (by decide) (by decide)).1

/-- C1 counterexample: on
`WCAG2AA.Principle1.Guideline1_4.2_5_3.G18.Fail` — a code matching the
structured pattern whose guideline digits differ from the leading
success-criterion digits — the Markdown mapping returns `1.4.3`, not the
trailing success-criterion triple `2.5.3` returned by the spreadsheet
mapping, so the claimed behaviour does not hold in every mapping
implementation. -/
theorem structured_code_resolution_counterexample :
    indexCriterion "WCAG2AA.Principle1.Guideline1_4.2_5_3.G18.Fail" =
        some "1.4.3" ∧
      reporterCriterion "WCAG2AA.Principle1.Guideline1_4.2_5_3.G18.Fail" =
        some "2.5.3" ∧
      ("1.4.3" : String) ≠ "2.5.3" := by
  refine ⟨by decide, by decide, by decide⟩

/-- C2 (amended): whenever the structured pattern fails and the bare
`N.N.N` pattern matches, the spreadsheet path resolves exactly the matched
substring, and the scenario-2 issue lands in bucket `2.4.2` with
`warningCount` 1 there; the Markdown path has no fallback and produces no
bucket at all for the same input. -/
theorem bare_triple_fallback :
    (∀ (code : String) (a b c : List Char),
        scan structAt code.data = none →
        scan bareAt code.data = some (a, b, c) →
        reporterCriterion code = some (criterionString a b c)) ∧
      warningCount
          (bucketIssuesAt (mapViolationsToWCAG [[bareTripleIssue]]) "2.4.2") = 1 ∧
      indexMapViolationsToWCAG [[bareTripleIssue]] = Except.ok [] := by
  refine ⟨?_, by decide, by decide⟩
  intro code a b c h1 h2
  rw [reporterCriterion, reporterResolve, h1, h2]
  rfl

/-- C2 witness: the fallback clause applied to the concrete code `2.4.2`. -/
theorem bare_triple_fallback_witness :
    reporterCriterion "2.4.2" = some (criterionString ['2'] ['4'] ['2']) :=
  bare_triple_fallback.1 "2.4.2" ['2'] ['4'] ['2'] (by decide) (by decide)

/-- C2 counterexample: the Markdown mapping has no fallback — on the
scenario-2 input it resolves nothing and returns no buckets, so
`byCriterion["2.4.2"].warningCount == 1` fails in that implementation. -/
theorem bare_triple_fallback_counterexample :
    indexCriterion "2.4.2" = none ∧
      indexMapViolationsToWCAG [[bareTripleIssue]] = Except.ok [] := by
  refine ⟨by decide, by decide⟩

/-- C3: the spreadsheet mapping tolerates an issue without `code` (optional
chaining makes it non-matching) and counts an issue without `type` as
neither error nor warning while still bucketing it; the Markdown mapping,
however, evaluates `issue.code.match` without optional chaining and throws
a `TypeError` on the first issue missing `code`, contradicting the claimed
never-throws behaviour of every mapping implementation. -/
theorem missing_field_handling :
    mapViolationsToWCAG [[codelessIssue]] = [] ∧
      (bucketIssuesAt (mapViolationsToWCAG [[typelessIssue]]) "2.4.2").length = 1 ∧
      errorCount (bucketIssuesAt (mapViolationsToWCAG [[typelessIssue]]) "2.4.2") = 0 ∧
      warningCount (bucketIssuesAt (mapViolationsToWCAG [[typelessIssue]]) "2.4.2") = 0 ∧
      indexMapViolationsToWCAG [[codelessIssue]] =
        Except.error "TypeError: Cannot read properties of undefined (reading match)" := by
  refine ⟨by decide, by decide, by decide, by decide, by decide⟩

/-- C4: the worksheet status has strict precedence — any error makes the
bucket "Ikke oppfylt" (not compliant) no matter how many warnings, only
warnings make it "Advarsel", otherwise "Oppfylt". -/
theorem status_precedence (issues : List BucketIssue) :
    (0 < errorCount issues → statusFor issues = "Ikke oppfylt") ∧
      (errorCount issues = 0 → 0 < warningCount issues →
        statusFor issues = "Advarsel") ∧
      (errorCount issues = 0 → warningCount issues = 0 →
        statusFor issues = "Oppfylt") := by
  refine ⟨fun h => ?_, fun h0 hw => ?_, fun h0 hw => ?_⟩
  · simp [statusFor, h]
  · simp [statusFor, h0, hw]
  · simp [statusFor, h0, hw]

/-- C4 witness: a bucket holding one error and five warnings classifies as
"Ikke oppfylt". -/
theorem status_precedence_witness :
    statusFor
        (bucketIssuesAt
          (mapViolationsToWCAG
            [[contrastError, contrastWarning, contrastWarning, contrastWarning,
              contrastWarning, contrastWarning]]) "1.4.3") = "Ikke oppfylt" :=
  (status_precedence _).1 (by decide)

/-- C8: on empty input every aggregate is empty — no criterion buckets in
either mapping and an all-zero `issuesByImpact`. -/
theorem empty_input_aggregate :
    mapViolationsToWCAG [] = [] ∧
      mapViolationsToWCAG [[]] = [] ∧
      indexMapViolationsToWCAG [] = Except.ok [] ∧
      groupIssuesByImpact [] = ⟨0, 0, 0, 0⟩ ∧
      (analyzeWebsite []).issuesByImpact = ⟨0, 0, 0, 0⟩ ∧
      (analyzeWebsite []).totalIssues = 0 := by
  refine ⟨rfl, rfl, rfl, rfl, rfl, rfl⟩

theorem groupedRecs_key (issues : List RawIssue) :
    ∀ e ∈ groupedRecs issues, jsStr e.2.code ++ "_" ++ jsStr e.2.type = e.1 := by
  intro e he
  refine entry_invariant_foldl_groupStep groupKeyOf groupMk groupAdd
    (fun k g => jsStr g.code ++ "_" ++ jsStr g.type = k) issues ?_ ?_ issues
    (fun i hi => hi) [] (by simp) e he
  · intro i k _ hk
    have : issueKey i = k := by
      simpa [groupKeyOf] using hk
    simpa [groupMk, issueKey] using this
  · intro k b i hb _ _
    simpa [groupAdd] using hb

theorem groupedRecs_elements (issues : List RawIssue) (k : String) :
    projAt GroupRec.elements (groupedRecs issues) k =
      (issues.filter fun i => decide (issueKey i = k)).map
        (fun i => (i.selector, i.context)) := by
  have h := projAt_foldl_groupStep groupKeyOf groupMk groupAdd
    GroupRec.elements (fun i => (i.selector, i.context)) (fun i => rfl)
    (fun b i => rfl) issues [] k
  have hpred : (fun i => decide (groupKeyOf i = some k)) =
      (fun i => decide (issueKey i = k)) := by
    funext i
    simp [groupKeyOf]
  rw [groupedRecs, h, hpred]
  simp [projAt, findKey]

theorem groupedRecs_keys_nodup (issues : List RawIssue) :
    ((groupedRecs issues).map Prod.fst).Nodup :=
  nodup_map_fst_foldl_groupStep groupKeyOf groupMk groupAdd issues [] (by simp)

theorem groupedRecs_keys_mem (issues : List RawIssue) (k : String) :
    k ∈ (groupedRecs issues).map Prod.fst ↔ k ∈ issues.map issueKey := by
  rw [groupedRecs, mem_map_fst_foldl_groupStep]
  simp [groupKeyOf, eq_comm]

theorem map_issueKey_groupIssuesByType (issues : List RawIssue) :
    (groupIssuesByType issues).map issueKey = (groupedRecs issues).map Prod.fst := by
  rw [groupIssuesByType, List.map_map]
  refine List.map_congr_left ?_
  intro e he
  have hk := groupedRecs_key issues e he
  simpa [issueKey, finishGroup, Function.comp] using hk

/-- C5 (amended): within one page-level pass, raw issues sharing the same
concatenated `code_type` key string are merged into exactly one summary
entry — the output carries pairwise distinct keys covering exactly the keys
of the input — and each entry's `affectedElements` equals the number of raw
occurrences bearing its key.  (For issues whose pair `(code, type)` is
literally equal the key always coincides, so such issues always merge; the
string key only differs from the pair when an underscore collision makes
two distinct pairs concatenate identically.) -/
theorem dedup_by_key (issues : List RawIssue) :
    (∀ e ∈ groupIssuesByType issues,
        e.affectedElements =
          some ((issues.filter fun i => decide (issueKey i = issueKey e)).length)) ∧
      ((groupIssuesByType issues).map issueKey).Nodup ∧
      (∀ k, k ∈ (groupIssuesByType issues).map issueKey ↔
        k ∈ issues.map issueKey) := by
  refine ⟨?_, ?_, ?_⟩
  · intro e he
    obtain ⟨⟨k, g⟩, hmem, hfin⟩ := List.mem_map.mp he
    have hke : issueKey e = k := by
      rw [← hfin]
      have := groupedRecs_key issues (k, g) hmem
      simpa [issueKey, finishGroup] using this
    have hfind : findKey k (groupedRecs issues) = some g :=
      findKey_of_mem_nodup (groupedRecs_keys_nodup issues) hmem
    have hel : g.elements =
        (issues.filter fun i => decide (issueKey i = k)).map
          (fun i => (i.selector, i.context)) := by
      have := groupedRecs_elements issues k
      rw [projAt, hfind] at this
      exact this
    rw [← hfin]
    have : (finishGroup g).affectedElements = some g.elements.length := rfl
    rw [this, hel, List.length_map]
    rw [← hfin] at hke
    rw [hke]
  · rw [map_issueKey_groupIssuesByType]
    exact groupedRecs_keys_nodup issues
  · intro k
    rw [map_issueKey_groupIssuesByType]
    exact groupedRecs_keys_mem issues k

/-- C5 witness: scenario 4 — two issues with identical code and type and
different selectors merge into one entry with `affectedElements` 2. -/
theorem dedup_by_key_witness :
    mergedDup.affectedElements =
        some (([dupIssueA, dupIssueB].filter fun i =>
          decide (issueKey i = issueKey mergedDup)).length) ∧
      ([dupIssueA, dupIssueB].filter fun i =>
        decide (issueKey i = issueKey mergedDup)).length = 2 :=
  ⟨(dedup_by_key [dupIssueA, dupIssueB]).1 mergedDup (by decide), by decide⟩

/-- C5 counterexample: the deduplication key is the concatenated string, not
the pair — two issues with distinct `(code, type)` pairs (`("a","b_c")` and
`("a_b","c")`) share the key `a_b_c` and collapse into a single entry, so
"one entry per `(code, type)` pair" fails. -/
theorem dedup_by_key_counterexample :
    (collideIssueA.code, collideIssueA.type) ≠
        (collideIssueB.code, collideIssueB.type) ∧
      issueKey collideIssueA = issueKey collideIssueB ∧
      (groupIssuesByType [collideIssueA, collideIssueB]).length = 1 ∧
      (groupIssuesByType [collideIssueA, collideIssueB]).map
          RawIssue.affectedElements = [some 2] := by
  refine ⟨by decide, by decide, by decide, by decide⟩

/-- C9 (amended): the multi-page `totalIssues` is the sum over successfully
analyzed pages of the number of per-page deduplicated entries — one entry
per distinct `code_type` key string occurring on the page (which is the
number of distinct `(code, type)` pairs except under underscore collisions)
— not the number of raw scanner occurrences. -/
theorem total_issues_counts_dedup (pages : List (List RawIssue)) :
    (analyzeWebsite pages).totalIssues =
        (pages.map fun page => (groupIssuesByType page).length).sum ∧
      ∀ page : List RawIssue,
        ((groupIssuesByType page).map issueKey).Nodup ∧
        ∀ k, k ∈ (groupIssuesByType page).map issueKey ↔ k ∈ page.map issueKey := by
  constructor
  · show ((pages.map groupIssuesByType).flatten).length = _
    rw [List.length_flatten, List.map_map]
    rfl
  · intro page
    refine ⟨?_, ?_⟩
    · rw [map_issueKey_groupIssuesByType]
      exact groupedRecs_keys_nodup page
    · intro k
      rw [map_issueKey_groupIssuesByType]
      exact groupedRecs_keys_mem page k

/-- C9 counterexample: a page with two raw issues whose distinct
`(code, type)` pairs collide on the string key has `totalIssues` 1, not the
number of distinct pairs (2). -/
theorem total_issues_counterexample :
    (analyzeWebsite [[collideIssueA, collideIssueB]]).totalIssues = 1 ∧
      (collideIssueA.code, collideIssueA.type) ≠
        (collideIssueB.code, collideIssueB.type) := by
  refine ⟨by decide, by decide⟩

theorem foldl_impactStep (issues : List RawIssue) :
    ∀ imp : Impact,
      issues.foldl impactStep imp =
        ⟨imp.critical +
            issues.countP (fun i => decide (normalizedType i.type = "error")),
          imp.serious +
            issues.countP (fun i => decide (normalizedType i.type = "warning")),
          imp.moderate +
            issues.countP (fun i =>
              decide (normalizedType i.type ≠ "error" ∧
                normalizedType i.type ≠ "warning")),
          imp.minor⟩ := by
  induction issues with
  | nil =>
    intro imp
    simp
  | cons i rest ih =>
    intro imp
    rw [List.foldl_cons, ih]
    by_cases h1 : normalizedType i.type = "error"
    · simp [impactStep, h1, List.countP_cons, Impact.mk.injEq]
      omega
    · by_cases h2 : normalizedType i.type = "warning"
      · simp [impactStep, h1, h2, List.countP_cons, Impact.mk.injEq]
        omega
      · simp [impactStep, h1, h2, List.countP_cons, Impact.mk.injEq]
        omega

theorem groupIssuesByImpact_spec (issues : List RawIssue) :
    groupIssuesByImpact issues =
      ⟨issues.countP (fun i => decide (normalizedType i.type = "error")),
        issues.countP (fun i => decide (normalizedType i.type = "warning")),
        issues.countP (fun i =>
          decide (normalizedType i.type ≠ "error" ∧
            normalizedType i.type ≠ "warning")),
        0⟩ := by
  rw [groupIssuesByImpact, foldl_impactStep]
  simp

/-- C6 (amended): the global `issuesByImpact` is computed in one pass over
the flattened (per-page deduplicated) issue sequence, not over per-criterion
buckets: an issue whose lowercased type is `error` adds 1 to `critical`, one
whose lowercased type is `warning` adds 1 to `serious`, every remaining
issue (including absent or empty `type`, which defaults to `notice`) adds 1
to `moderate`, and `minor` is always zero.  (The comparison is against the
lowercased type — `type: "ERROR"` counts as critical, not moderate.) -/
theorem impact_single_pass (pages : List (List RawIssue)) :
    (analyzeWebsite pages).issuesByImpact =
        groupIssuesByImpact ((pages.map groupIssuesByType).flatten) ∧
      ∀ issues : List RawIssue,
        groupIssuesByImpact issues =
          ⟨issues.countP (fun i => decide (normalizedType i.type = "error")),
            issues.countP (fun i => decide (normalizedType i.type = "warning")),
            issues.countP (fun i =>
              decide (normalizedType i.type ≠ "error" ∧
                normalizedType i.type ≠ "warning")),
            0⟩ := by
  exact ⟨rfl, groupIssuesByImpact_spec⟩

/-- C6 counterexample: an issue of type `ERROR` — a "remaining type" under
the claim's literal `type === 'error'` reading — is tallied as `critical`,
not `moderate`, because the code lowercases the type first. -/
theorem impact_single_pass_counterexample :
    groupIssuesByImpact [⟨some "c", some "ERROR", "m", "s", "", none⟩] =
        ⟨1, 0, 0, 0⟩ ∧
      (some "ERROR" : Option String) ≠ some "error" ∧
      groupIssuesByImpact [⟨some "c", some "ERROR", "m", "s", "", none⟩] ≠
        ⟨0, 0, 1, 0⟩ := by
  refine ⟨by decide, by decide, by decide⟩

theorem reporterMk_issues (i : RawIssue) : (reporterMk i).issues = [summarize i] := by
  cases hc : i.code with
  | none => simp [reporterMk, hc]
  | some c =>
    cases hr : reporterResolve c with
    | none => simp [reporterMk, hc, hr]
    | some pr => simp [reporterMk, hc, hr]

/-- The issue list of the bucket at a criterion is exactly the summaries of
the flattened issues that resolve to that criterion, in encounter order. -/
theorem mapViolations_bucket (pages : List (List RawIssue)) (k : String) :
    bucketIssuesAt (mapViolationsToWCAG pages) k =
      (pages.flatten.filter fun i => decide (reporterKeyOf i = some k)).map
        summarize := by
  rw [bucketIssuesAt, mapViolationsToWCAG,
    projAt_foldl_groupStep reporterKeyOf reporterMk reporterAdd Bucket.issues
      summarize reporterMk_issues (fun b i => rfl)]
  simp [projAt, findKey]

/-- C7: aggregation is insensitive to the order in which pages are merged —
permuting the page-partitioned input leaves every criterion's `errorCount`,
`warningCount` and `totalAffectedElements` unchanged, and leaves the global
`issuesByImpact` tally of the analyzer unchanged. -/
theorem page_order_insensitive (pages1 pages2 : List (List RawIssue))
    (h : pages1.Perm pages2) :
    (∀ k : String,
        errorCount (bucketIssuesAt (mapViolationsToWCAG pages1) k) =
            errorCount (bucketIssuesAt (mapViolationsToWCAG pages2) k) ∧
          warningCount (bucketIssuesAt (mapViolationsToWCAG pages1) k) =
            warningCount (bucketIssuesAt (mapViolationsToWCAG pages2) k) ∧
          totalAffected (bucketIssuesAt (mapViolationsToWCAG pages1) k) =
            totalAffected (bucketIssuesAt (mapViolationsToWCAG pages2) k)) ∧
      (analyzeWebsite pages1).issuesByImpact =
        (analyzeWebsite pages2).issuesByImpact := by
  have hflat : (pages1.flatten).Perm (pages2.flatten) := h.flatten
  constructor
  · intro k
    have hb : ((pages1.flatten.filter fun i =>
          decide (reporterKeyOf i = some k)).map summarize).Perm
        ((pages2.flatten.filter fun i =>
          decide (reporterKeyOf i = some k)).map summarize) :=
      (hflat.filter _).map summarize
    rw [mapViolations_bucket, mapViolations_bucket]
    exact ⟨(hb.filter _).length_eq, (hb.filter _).length_eq,
      (hb.map BucketIssue.affectedElements).sum_eq⟩
  · have hg : ((pages1.map groupIssuesByType).flatten).Perm
        ((pages2.map groupIssuesByType).flatten) :=
      (h.map groupIssuesByType).flatten
    show groupIssuesByImpact ((pages1.map groupIssuesByType).flatten) =
      groupIssuesByImpact ((pages2.map groupIssuesByType).flatten)
    rw [groupIssuesByImpact_spec, groupIssuesByImpact_spec,
      hg.countP_eq, hg.countP_eq, hg.countP_eq]

/-- C7 witness: swapping two concrete pages leaves the error count of
bucket `1.4.3` unchanged. -/
theorem page_order_insensitive_witness :
    errorCount
        (bucketIssuesAt
          (mapViolationsToWCAG [[contrastError], [bareTripleIssue]]) "1.4.3") =
      errorCount
        (bucketIssuesAt
          (mapViolationsToWCAG [[bareTripleIssue], [contrastError]]) "1.4.3") :=
  ((page_order_insensitive [[contrastError], [bareTripleIssue]]
    [[bareTripleIssue], [contrastError]] (List.Perm.swap _ _ _)).1 "1.4.3").1

theorem findKey_groupStep_ne (acc : List (String × GroupRec)) (i : RawIssue)
    {k : String} (hne : issueKey i ≠ k) :
    findKey k (groupStep groupKeyOf groupMk groupAdd acc i) = findKey k acc := by
  rcases hf : findKey (issueKey i) acc with _ | b
  · rw [groupStep]
    simp only [groupKeyOf, hf]
    rw [findKey_append]
    rcases hk2 : findKey k acc with _ | b2
    · simp [findKey, hne]
    · simp
  · rw [groupStep]
    simp only [groupKeyOf, hf]
    exact findKey_updateKey_ne hne _ acc

theorem findKey_groupStep_self (acc : List (String × GroupRec)) (i : RawIssue)
    (g0 : GroupRec) (h : findKey (issueKey i) acc = some g0) :
    findKey (issueKey i) (groupStep groupKeyOf groupMk groupAdd acc i) =
      some (groupAdd g0 i) := by
  rw [groupStep]
  simp only [groupKeyOf, h]
  rw [findKey_updateKey_self, h]
  rfl

theorem findKey_groupStep_new (acc : List (String × GroupRec)) (i : RawIssue)
    (h : findKey (issueKey i) acc = none) :
    findKey (issueKey i) (groupStep groupKeyOf groupMk groupAdd acc i) =
      some (groupMk i) := by
  rw [groupStep]
  simp only [groupKeyOf, h]
  rw [findKey_append, h]
  simp [findKey]

/-- The scalar fields of an accumulated record never change after the
record is created. -/
theorem grouped_scalars_stable :
    ∀ (l : List RawIssue) (acc : List (String × GroupRec)) (k : String)
      (g0 : GroupRec), findKey k acc = some g0 →
      ∃ g1,
        findKey k (l.foldl (groupStep groupKeyOf groupMk groupAdd) acc) =
            some g1 ∧
          g1.code = g0.code ∧ g1.type = g0.type ∧ g1.message = g0.message ∧
          g1.selector = g0.selector ∧ g1.context = g0.context := by
  intro l
  induction l with
  | nil =>
    intro acc k g0 h
    exact ⟨g0, h, rfl, rfl, rfl, rfl, rfl⟩
  | cons i rest ih =>
    intro acc k g0 h
    rw [List.foldl_cons]
    by_cases hk : issueKey i = k
    · subst hk
      obtain ⟨g1, hg1, h1, h2, h3, h4, h5⟩ :=
        ih (groupStep groupKeyOf groupMk groupAdd acc i) (issueKey i)
          (groupAdd g0 i) (findKey_groupStep_self acc i g0 h)
      exact ⟨g1, hg1, h1, h2, h3, h4, h5⟩
    · refine ih _ k g0 ?_
      rw [findKey_groupStep_ne acc i hk]
      exact h

/-- A record present in the final accumulation but absent from the start
was created by the first input issue bearing its key, whose scalar fields
it copies. -/
theorem grouped_entry_source :
    ∀ (l : List RawIssue) (acc : List (String × GroupRec)) (k : String),
      findKey k acc = none →
      ∀ g,
        findKey k (l.foldl (groupStep groupKeyOf groupMk groupAdd) acc) =
          some g →
        ∃ i0,
          l.find? (fun i => decide (issueKey i = k)) = some i0 ∧
            g.code = i0.code ∧ g.type = i0.type ∧ g.message = i0.message ∧
            g.selector = i0.selector ∧ g.context = i0.context := by
  intro l
  induction l with
  | nil =>
    intro acc k hnone g hg
    rw [List.foldl_nil, hnone] at hg
    exact Option.noConfusion hg
  | cons i rest ih =>
    intro acc k hnone g hg
    rw [List.foldl_cons] at hg
    by_cases hk : issueKey i = k
    · subst hk
      obtain ⟨g1, hg1, h1, h2, h3, h4, h5⟩ :=
        grouped_scalars_stable rest
          (groupStep groupKeyOf groupMk groupAdd acc i) (issueKey i)
          (groupMk i) (findKey_groupStep_new acc i hnone)
      rw [hg1] at hg
      obtain rfl : g1 = g := Option.some.inj hg
      refine ⟨i, ?_, h1, h2, h3, h4, h5⟩
      simp [List.find?]
    · have hstep : findKey k (groupStep groupKeyOf groupMk groupAdd acc i) =
          none := by
        rw [findKey_groupStep_ne acc i hk]
        exact hnone
      obtain ⟨i0, hfind, hs⟩ := ih _ k hstep g hg
      refine ⟨i0, ?_, hs⟩
      simp [List.find?, hk]
      exact hfind

theorem affectsSuffix_length_pos (n : Nat) : 0 < (affectsSuffix n).length := by
  rw [affectsSuffix, String.length_append, String.length_append,
    String.length_append, String.length_append]
  have h10 : " (Affects ".length = 10 := by decide
  omega

/-- C10: every deduplicated issue's message is not the raw scanner message
verbatim — it is the first merged occurrence's message with
`" (Affects N element(s)")` appended (singular for N = 1), where N is the
number of merged occurrences, and this suffixed message is what the grouped
output (read downstream) carries. -/
theorem message_has_affects_suffix (issues : List RawIssue) (e : RawIssue)
    (he : e ∈ groupIssuesByType issues) (i0 : RawIssue)
    (hfind : issues.find? (fun i => decide (issueKey i = issueKey e)) = some i0) :
    e.affectedElements =
        some ((issues.filter fun i => decide (issueKey i = issueKey e)).length) ∧
      e.message =
        i0.message ++
          (" (Affects " ++
            toString
              ((issues.filter fun i => decide (issueKey i = issueKey e)).length) ++
            " element" ++
            (if (issues.filter fun i =>
                decide (issueKey i = issueKey e)).length > 1
              then "s" else "") ++ ")") ∧
      e.message ≠ i0.message ∧
      1 ≤ (issues.filter fun i => decide (issueKey i = issueKey e)).length := by
  obtain ⟨⟨k, g⟩, hmem, hfin⟩ := List.mem_map.mp he
  have hke : issueKey e = k := by
    rw [← hfin]
    have := groupedRecs_key issues (k, g) hmem
    simpa [issueKey, finishGroup] using this
  have hfK : findKey k (groupedRecs issues) = some g :=
    findKey_of_mem_nodup (groupedRecs_keys_nodup issues) hmem
  have hel : g.elements =
      (issues.filter fun i => decide (issueKey i = k)).map
        (fun i => (i.selector, i.context)) := by
    have h2 := groupedRecs_elements issues k
    rw [projAt, hfK] at h2
    exact h2
  obtain ⟨i1, hfind1, hc, ht, hm, hs, hx⟩ :=
    grouped_entry_source issues [] k (by simp [findKey]) g hfK
  rw [hke] at hfind
  rw [hfind1] at hfind
  have heq : i1 = i0 := Option.some.inj hfind
  rw [heq] at hfind1 hm
  have hn : g.elements.length =
      (issues.filter fun i => decide (issueKey i = k)).length := by
    rw [hel, List.length_map]
  rw [hke]
  refine ⟨?_, ?_, ?_, ?_⟩
  · rw [← hfin]
    show some g.elements.length = _
    rw [hn]
  · rw [← hfin]
    show g.message ++ affectsSuffix g.elements.length = _
    rw [hm, hn, affectsSuffix]
  · rw [← hfin]
    show g.message ++ affectsSuffix g.elements.length ≠ i0.message
    rw [hm]
    intro hh
    have hl := congrArg String.length hh
    rw [String.length_append] at hl
    have hpos := affectsSuffix_length_pos g.elements.length
    omega
  · have hp := List.find?_some hfind1
    have hm0 := List.mem_of_find?_eq_some hfind1
    have hmf : i0 ∈ issues.filter (fun i => decide (issueKey i = k)) :=
      List.mem_filter.mpr ⟨hm0, hp⟩
    exact List.length_pos.mpr (List.ne_nil_of_mem hmf)

/-- C10 witness: in scenario 4 the merged entry's message is the raw message
`m` with `" (Affects 2 elements)"` appended. -/
theorem message_has_affects_suffix_witness :
    mergedDup.affectedElements =
        some (([dupIssueA, dupIssueB].filter fun i =>
          decide (issueKey i = issueKey mergedDup)).length) ∧
      mergedDup.message =
        dupIssueA.message ++
          (" (Affects " ++
            toString
              (([dupIssueA, dupIssueB].filter fun i =>
                decide (issueKey i = issueKey mergedDup)).length) ++
            " element" ++
            (if ([dupIssueA, dupIssueB].filter fun i =>
                decide (issueKey i = issueKey mergedDup)).length > 1
              then "s" else "") ++ ")") ∧
      mergedDup.message ≠ dupIssueA.message ∧
      1 ≤ ([dupIssueA, dupIssueB].filter fun i =>
        decide (issueKey i = issueKey mergedDup)).length :=
  message_has_affects_suffix [dupIssueA, dupIssueB] mergedDup (by decide)
    dupIssueA (by decide)

